import Mathlib

/-!
Shallow embedding of the value-translation and point-aggregation pipeline of
munin-influxdb (munininfluxdb/fetch.py): pack_values, read_state_file and the
per-statefile loop of main, together with theorems checking the specification
of this pipeline against the code.

Modelling conventions: Python integers are Int, decimal raw values and floats
are rationals, Python dicts are insertion-ordered association lists with
unique keys, and exceptions are an explicit Except layer.
-/

set_option autoImplicit false

deriving instance DecidableEq for Except

namespace MuninFetch

/-- Raw sample value coming out of a decoded state file: either the Munin
unknown sentinel string or a decimal number (modelled as a rational). -/
inductive RawValue where
  | unknown
  | num (q : ℚ)
  deriving DecidableEq

/-- One metric's decoded sample pair: current and previous (timestamp, value),
as produced by read_state_file from the state blob. -/
structure Sample where
  current : Int × RawValue
  previous : Int × RawValue
  deriving DecidableEq

/-- Values stored in the per-measurement Python dict built by pack_values:
the time entry (an int), a transformed field value (a float), None for the
unknown sentinel, or the tag dict of domain, host and plugin. -/
inductive PyVal where
  | vInt (n : Int)
  | vRat (q : ℚ)
  | vNone
  | vTags (domain host plugin : String)
  deriving DecidableEq

/-- Exceptions the counter branch of pack_values can raise: float applied to
the unknown sentinel, and division by a zero timestamp difference. -/
inductive PackError where
  | valueError
  | zeroDivision
  deriving DecidableEq

/-- Insertion-ordered association list standing for a Python dict. -/
abbrev Dict (α β : Type) := List (α × β)

/-- Python dict assignment d[k] = v: overwrite the entry in place when the
key is present, append a new entry otherwise. -/
def dictSet {β : Type} : Dict String β → String → β → Dict String β
  | [], k, v => [(k, v)]
  | (k', v') :: d, k, v => if k' = k then (k, v) :: d else (k', v') :: dictSet d k v

/-- The slice of the fetch configuration that pack_values and main read:
the metrics table mapping a raw key to (domain, host, measurement, field),
and the lastupdate watermark (None when the JSON value is null). -/
structure Config where
  metrics : Dict String (String × String × String × String)
  lastupdate : Option Int
  deriving DecidableEq

/-- Modelled from the spec: Defaults.DEFAULT_RRD_INDEX lives in
munininfluxdb/settings.py, which is not among the sources here; the spec's
scenario key "diskstats_sda:42" and the source comment "usually stored as
rrd-filename:42 with 42 being a constant column name for RRD files" fix the
constant data-source index to 42. -/
def DEFAULT_RRD_INDEX : Nat := 42

/-- The suffix ":42" built by pack_values from DEFAULT_RRD_INDEX. -/
def rrdIndexSuffix : String := ":42"

/-- Suffix stripping of pack_values: name = metric without the trailing
":42" when metric ends with it, metric unchanged otherwise. -/
def stripIndexSuffix (metric : String) : String :=
  if rrdIndexSuffix.data.isSuffixOf metric.data then
    String.mk (metric.data.take (metric.data.length - rrdIndexSuffix.data.length))
  else metric

/-- Python slice name[-5:-4]: the single character five places from the end,
or the empty string when the name is shorter than five characters. This is
how pack_values reads the rrdtype character. -/
def sliceM5M4 (name : String) : String :=
  if 5 ≤ name.data.length then
    String.mk ((name.data.drop (name.data.length - 5)).take 1)
  else ""

/-- What pack_values does to the field entry of one sample, mirroring the
rrdtype dispatch: None for the unknown sentinel, pass-through for a and g,
a rate for c and d (raising valueError on an unknown previous value and
zeroDivision on equal timestamps), and no assignment at all for any other
type code. -/
inductive FieldAction where
  | skip
  | assign (v : Option ℚ)
  deriving DecidableEq

/-- The field value computation of pack_values for one sample. -/
def fieldAction (rrdtype : String) (latest_date previous_date : Int)
    (latest_value previous_value : RawValue) : Except PackError FieldAction :=
  match latest_value with
  | .unknown => .ok (.assign none)
  | .num lv =>
    if rrdtype = "a" ∨ rrdtype = "g" then .ok (.assign (some lv))
    else if rrdtype = "c" ∨ rrdtype = "d" then
      match previous_value with
      | .unknown => .error .valueError
      | .num pv =>
        if latest_date = previous_date then .error .zeroDivision
        else .ok (.assign (some ((lv - pv) / (((latest_date - previous_date : Int)) : ℚ))))
    else .ok .skip

/-- Conversion of a computed field value to the stored Python value. -/
def pyValOf : Option ℚ → PyVal
  | none => .vNone
  | some q => .vRat q

/-- State of the pack_values loop: the accumulated measurement dict and the
names printed in not-found warnings so far. -/
structure PackState where
  data : Dict String (Dict String PyVal)
  warnings : List String
  deriving DecidableEq

/-- One iteration of the pack_values loop over the metrics of a sample set:
on a configuration hit, set tags and time and apply the field action for the
measurement entry; on a miss, warn when the age in days is below seven. -/
def packStep (config : Config) (date : Int) (st : PackState)
    (m : String × Sample) : Except PackError PackState :=
  let latest_date := m.2.current.1
  let name := stripIndexSuffix m.1
  match (config.metrics).lookup name with
  | some (domain, host, measurement, field) =>
    let rrdtype := sliceM5M4 name
    let entry0 := ((st.data).lookup measurement).getD []
    let entry1 := dictSet entry0 "tags" (.vTags domain host measurement)
    let entry2 := dictSet entry1 "time" (.vInt latest_date)
    match fieldAction rrdtype latest_date m.2.previous.1 m.2.current.2 m.2.previous.2 with
    | .error e => .error e
    | .ok .skip => .ok ⟨dictSet st.data measurement entry2, st.warnings⟩
    | .ok (.assign v) =>
      .ok ⟨dictSet st.data measurement (dictSet entry2 field (pyValOf v)), st.warnings⟩
  | none =>
    let age := (date - latest_date).fdiv (24 * 3600)
    if age < 7 then .ok ⟨st.data, st.warnings ++ [name]⟩ else .ok st

/-- One output point: measurement name, the stored tags and time entries and
the remaining entries as the fields map, exactly as the final comprehension
of pack_values builds them. tags and time stay PyVal because a field named
time or tags can overwrite them. -/
structure Point where
  measurement : String
  tags : PyVal
  time : PyVal
  fields : Dict String PyVal
  deriving DecidableEq

/-- The point built from one accumulated measurement entry. -/
def mkPoint (measurement : String) (entry : Dict String PyVal) : Point :=
  { measurement := measurement
    tags := (entry.lookup "tags").getD .vNone
    time := (entry.lookup "time").getD .vNone
    fields := entry.filter (fun p => !(p.1 == "time") && !(p.1 == "tags")) }

/-- The pack_values loop over the metrics of the sample set, threading the
accumulator and stopping at the first raised exception. -/
def packFold (config : Config) (date : Int) :
    PackState → List (String × Sample) → Except PackError PackState
  | st, [] => .ok st
  | st, m :: ms =>
    match packStep config date st m with
    | .error e => .error e
    | .ok st' => packFold config date st' ms

/-- pack_values: run the loop over the sample set, then turn each measurement
entry into a point; also returns the warned names. -/
def packValues (config : Config) (values : List (String × Sample) × Int) :
    Except PackError (List Point × List String) :=
  match packFold config values.2 ⟨[], []⟩ values.1 with
  | .error e => .error e
  | .ok st => .ok ((st.data).map (fun p => mkPoint p.1 p.2), st.warnings)

/-- Outcome of read_state_file for one configured state file: either an
exception or the sample set paired with the spoolfetch collection
timestamp. -/
inductive DecodeResult where
  | failure
  | ok (values : List (String × Sample) × Int)
  deriving DecidableEq

/-- One configured state file together with the environment's behaviour for
it: how decoding goes and whether a write_points call on it would succeed. -/
structure StateFile where
  decode : DecodeResult
  writeOk : Bool
  deriving DecidableEq

/-- Observable per-file outcome printed by the main loop. -/
inductive Event where
  | decodeError
  | noData
  | writeError
  | written (n : Nat)
  deriving DecidableEq

/-- Ways the whole run can fail: the startup connection check, or an
exception escaping pack_values, which is called outside the per-file
exception handler. -/
inductive RunError where
  | connection
  | pack (e : PackError)
  deriving DecidableEq

/-- The body of the main loop for one state file: skip on decode failure,
pack the values (propagating any exception), then either warn on an empty
batch, write and advance the watermark on success, or absorb the write
failure. The getD 0 mirrors the expression lastupdate or 0. -/
def processFile (config : Config) (f : StateFile) : Except PackError (Config × Event) :=
  match f.decode with
  | .failure => .ok (config, .decodeError)
  | .ok values =>
    match packValues config values with
    | .error e => .error e
    | .ok (points, _) =>
      if points.length ≠ 0 then
        if f.writeOk then
          .ok (⟨config.metrics, some (max ((config.lastupdate).getD 0) values.2)⟩,
               .written points.length)
        else .ok (config, .writeError)
      else .ok (config, .noData)

/-- The main loop over the configured state files, threading the mutated
configuration and collecting the per-file events. -/
def runFiles (config : Config) : List StateFile → Except PackError (Config × List Event)
  | [] => .ok (config, [])
  | f :: fs =>
    match processFile config f with
    | .error e => .error e
    | .ok (config1, ev) =>
      match runFiles config1 fs with
      | .error e => .error e
      | .ok (config2, evs) => .ok (config2, ev :: evs)

/-- main: the startup availability check is fatal before any state file is
touched; otherwise run the loop, with pack_values exceptions escaping. -/
def fetchMain (canConnect : Bool) (config : Config) (files : List StateFile) :
    Except RunError (Config × List Event) :=
  if canConnect then
    match runFiles config files with
    | .error e => .error (.pack e)
    | .ok r => .ok r
  else .error .connection


/-- Spec-following definition for comparison: the type code read at the same
fixed character position, but of the unstripped raw key, as the spec words
it. -/
def rrdtypeOfUnstripped (metric : String) : String := sliceM5M4 metric

/-! Helper lemmas about the dict model and the loop. -/

theorem lookup_dictSet_self {β : Type} (d : Dict String β) (k : String) (v : β) :
    (dictSet d k v).lookup k = some v := by
  induction d with
  | nil => simp [dictSet, List.lookup]
  | cons p d ih =>
    by_cases h : p.1 = k
    · simp [dictSet, h, List.lookup]
    · have hb : (k == p.1) = false := by
        simp only [beq_eq_false_iff_ne]
        exact fun hh => h hh.symm
      simp [dictSet, h, List.lookup, hb, ih]

theorem lookup_dictSet_ne {β : Type} (d : Dict String β) (k k' : String) (v : β)
    (h : k' ≠ k) : (dictSet d k v).lookup k' = d.lookup k' := by
  induction d with
  | nil =>
    have hb : (k' == k) = false := beq_eq_false_iff_ne.mpr h
    simp [dictSet, List.lookup, hb]
  | cons p d ih =>
    by_cases hp : p.1 = k
    · subst hp
      have hb : (k' == p.1) = false := beq_eq_false_iff_ne.mpr h
      simp [dictSet, List.lookup, hb]
    · simp only [dictSet, if_neg hp]
      by_cases hk : k' = p.1
      · simp [List.lookup, hk]
      · have hb : (k' == p.1) = false := beq_eq_false_iff_ne.mpr hk
        simp [List.lookup, hb, ih]

theorem lookup_dictSet_isSome {β : Type} (d : Dict String β) (k k' : String) (v : β)
    (h : (d.lookup k').isSome) : ((dictSet d k v).lookup k').isSome := by
  by_cases hk : k' = k
  · subst hk
    simp [lookup_dictSet_self]
  · rw [lookup_dictSet_ne d k k' v hk]
    exact h

theorem mem_of_lookup_eq_some {β : Type} (d : Dict String β) (k : String) (v : β)
    (h : d.lookup k = some v) : (k, v) ∈ d := by
  induction d with
  | nil => simp [List.lookup] at h
  | cons p d ih =>
    rcases hb : (k == p.1) with _ | _
    · simp only [List.lookup, hb] at h
      exact List.mem_cons_of_mem p (ih h)
    · simp only [List.lookup, hb] at h
      have hk : k = p.1 := by simpa [beq_iff_eq] using hb
      cases h
      rw [hk]
      exact List.mem_cons_self p d

theorem lookup_filter_keep (entry : Dict String PyVal) (k : String)
    (h1 : k ≠ "time") (h2 : k ≠ "tags") :
    (entry.filter (fun p => !(p.1 == "time") && !(p.1 == "tags"))).lookup k =
      entry.lookup k := by
  induction entry with
  | nil => simp
  | cons p e ih =>
    by_cases hp : p.1 = "time" ∨ p.1 = "tags"
    · have hbk : (k == p.1) = false := by
        rcases hp with hp | hp
        · exact beq_eq_false_iff_ne.mpr (fun hh => h1 (hh.trans hp))
        · exact beq_eq_false_iff_ne.mpr (fun hh => h2 (hh.trans hp))
      have hpf : (!(p.1 == "time") && !(p.1 == "tags")) = false := by
        rcases hp with hp | hp <;> simp [hp]
      simp only [List.filter, hpf, List.lookup, hbk, ih]
    · push_neg at hp
      have hpf : (!(p.1 == "time") && !(p.1 == "tags")) = true := by
        simp [hp.1, hp.2]
      simp only [List.filter, hpf, List.lookup, ih]

theorem lookup_filter_drop (entry : Dict String PyVal) (k : String)
    (h : k = "time" ∨ k = "tags") :
    (entry.filter (fun p => !(p.1 == "time") && !(p.1 == "tags"))).lookup k = none := by
  induction entry with
  | nil => simp
  | cons p e ih =>
    by_cases hp : p.1 = "time" ∨ p.1 = "tags"
    · have hpf : (!(p.1 == "time") && !(p.1 == "tags")) = false := by
        rcases hp with hp | hp <;> simp [hp]
      simp only [List.filter, hpf, ih]
    · push_neg at hp
      have hpf : (!(p.1 == "time") && !(p.1 == "tags")) = true := by
        simp [hp.1, hp.2]
      have hbk : (k == p.1) = false := by
        rcases h with h | h
        · subst h
          exact beq_eq_false_iff_ne.mpr (fun hh => hp.1 hh.symm)
        · subst h
          exact beq_eq_false_iff_ne.mpr (fun hh => hp.2 hh.symm)
      simp only [List.filter, hpf, List.lookup, hbk, ih]

theorem packStep_found (config : Config) (date : Int) (st : PackState) (m : String × Sample)
    (domain host measurement field : String)
    (hlook : (config.metrics).lookup (stripIndexSuffix m.1) =
      some (domain, host, measurement, field)) :
    packStep config date st m =
      match fieldAction (sliceM5M4 (stripIndexSuffix m.1)) m.2.current.1 m.2.previous.1
          m.2.current.2 m.2.previous.2 with
      | .error e => .error e
      | .ok .skip => .ok ⟨dictSet st.data measurement
          (dictSet (dictSet (((st.data).lookup measurement).getD [])
            "tags" (.vTags domain host measurement)) "time" (.vInt m.2.current.1)),
          st.warnings⟩
      | .ok (.assign v) => .ok ⟨dictSet st.data measurement
          (dictSet (dictSet (dictSet (((st.data).lookup measurement).getD [])
            "tags" (.vTags domain host measurement)) "time" (.vInt m.2.current.1))
            field (pyValOf v)),
          st.warnings⟩ := by
  simp only [packStep]
  rw [hlook]

theorem packStep_miss (config : Config) (date : Int) (st : PackState) (m : String × Sample)
    (hmiss : (config.metrics).lookup (stripIndexSuffix m.1) = none) :
    packStep config date st m =
      if (date - m.2.current.1).fdiv (24 * 3600) < 7 then
        .ok ⟨st.data, st.warnings ++ [stripIndexSuffix m.1]⟩
      else .ok st := by
  simp only [packStep]
  rw [hmiss]

theorem packStep_preserves_key (config : Config) (date : Int) (st st' : PackState)
    (m : String × Sample) (meas : String)
    (hstep : packStep config date st m = .ok st')
    (hk : ((st.data).lookup meas).isSome) : ((st'.data).lookup meas).isSome := by
  rcases hl : (config.metrics).lookup (stripIndexSuffix m.1) with _ | q
  · rw [packStep_miss config date st m hl] at hstep
    by_cases h7 : (date - m.2.current.1).fdiv (24 * 3600) < 7
    · rw [if_pos h7] at hstep
      cases hstep
      exact hk
    · rw [if_neg h7] at hstep
      cases hstep
      exact hk
  · obtain ⟨domain, host, measurement, field⟩ := q
    rw [packStep_found config date st m domain host measurement field hl] at hstep
    rcases hfa : fieldAction (sliceM5M4 (stripIndexSuffix m.1)) m.2.current.1 m.2.previous.1
        m.2.current.2 m.2.previous.2 with e | a
    · rw [hfa] at hstep
      cases hstep
    · rcases a with _ | v <;> rw [hfa] at hstep <;> cases hstep <;>
        exact lookup_dictSet_isSome _ _ _ _ hk

theorem packFold_preserves_key (config : Config) (date : Int)
    (ms : List (String × Sample)) (st st' : PackState) (meas : String)
    (hfold : packFold config date st ms = .ok st')
    (hk : ((st.data).lookup meas).isSome) : ((st'.data).lookup meas).isSome := by
  induction ms generalizing st with
  | nil =>
    cases hfold
    exact hk
  | cons m ms ih =>
    rcases hs : packStep config date st m with e | st1
    · rw [packFold, hs] at hfold
      cases hfold
    · rw [packFold, hs] at hfold
      exact ih st1 hfold (packStep_preserves_key config date st st1 m meas hs hk)

theorem packFold_append_ok (config : Config) (date : Int)
    (ms1 ms2 : List (String × Sample)) (st st' : PackState)
    (h : packFold config date st (ms1 ++ ms2) = .ok st') :
    ∃ st1, packFold config date st ms1 = .ok st1 ∧ packFold config date st1 ms2 = .ok st' := by
  induction ms1 generalizing st with
  | nil => exact ⟨st, rfl, h⟩
  | cons m ms ih =>
    rcases hs : packStep config date st m with e | st1
    · rw [List.cons_append, packFold, hs] at h
      cases h
    · rw [List.cons_append, packFold, hs] at h
      obtain ⟨st2, h1, h2⟩ := ih st1 h
      refine ⟨st2, ?_, h2⟩
      rw [packFold, hs]
      exact h1

theorem packStep_assign_lookups (config : Config) (date : Int) (st st' : PackState)
    (m : String × Sample) (domain host measurement field : String) (v : Option ℚ)
    (hlook : (config.metrics).lookup (stripIndexSuffix m.1) =
      some (domain, host, measurement, field))
    (hfa : fieldAction (sliceM5M4 (stripIndexSuffix m.1)) m.2.current.1 m.2.previous.1
      m.2.current.2 m.2.previous.2 = .ok (.assign v))
    (hf1 : field ≠ "time") (hf2 : field ≠ "tags")
    (hstep : packStep config date st m = .ok st') :
    ∃ entry, (st'.data).lookup measurement = some entry ∧
      entry.lookup field = some (pyValOf v) ∧
      entry.lookup "time" = some (.vInt m.2.current.1) ∧
      entry.lookup "tags" = some (.vTags domain host measurement) := by
  rw [packStep_found config date st m domain host measurement field hlook, hfa] at hstep
  cases hstep
  refine ⟨_, lookup_dictSet_self _ _ _, lookup_dictSet_self _ _ _, ?_, ?_⟩
  · rw [lookup_dictSet_ne _ _ _ _ (fun hh => hf1 hh.symm)]
    exact lookup_dictSet_self _ _ _
  · rw [lookup_dictSet_ne _ _ _ _ (fun hh => hf2 hh.symm),
      lookup_dictSet_ne _ _ _ _ (by decide)]
    exact lookup_dictSet_self _ _ _

theorem packStep_preserves_field (config : Config) (date : Int) (st st' : PackState)
    (m : String × Sample) (meas fld : String) (val : PyVal)
    (hstep : packStep config date st m = .ok st')
    (hf1 : fld ≠ "time") (hf2 : fld ≠ "tags")
    (hnc : ∀ d' h' f', (config.metrics).lookup (stripIndexSuffix m.1) =
      some (d', h', meas, f') → f' ≠ fld)
    (hk : ∃ e, (st.data).lookup meas = some e ∧ e.lookup fld = some val) :
    ∃ e, (st'.data).lookup meas = some e ∧ e.lookup fld = some val := by
  obtain ⟨e0, he0, hv0⟩ := hk
  rcases hl : (config.metrics).lookup (stripIndexSuffix m.1) with _ | q
  · rw [packStep_miss config date st m hl] at hstep
    by_cases h7 : (date - m.2.current.1).fdiv (24 * 3600) < 7
    · rw [if_pos h7] at hstep
      cases hstep
      exact ⟨e0, he0, hv0⟩
    · rw [if_neg h7] at hstep
      cases hstep
      exact ⟨e0, he0, hv0⟩
  · obtain ⟨domain, host, measurement, field⟩ := q
    rw [packStep_found config date st m domain host measurement field hl] at hstep
    by_cases hm : measurement = meas
    · subst hm
      have hfld : field ≠ fld := hnc domain host field hl
      rcases hfa : fieldAction (sliceM5M4 (stripIndexSuffix m.1)) m.2.current.1 m.2.previous.1
          m.2.current.2 m.2.previous.2 with e | a
      · rw [hfa] at hstep
        cases hstep
      · rcases a with _ | v
        · rw [hfa] at hstep
          cases hstep
          refine ⟨_, lookup_dictSet_self _ _ _, ?_⟩
          rw [lookup_dictSet_ne _ _ _ _ hf1, lookup_dictSet_ne _ _ _ _ hf2, he0]
          exact hv0
        · rw [hfa] at hstep
          cases hstep
          refine ⟨_, lookup_dictSet_self _ _ _, ?_⟩
          rw [lookup_dictSet_ne _ _ _ _ (fun hh => hfld hh.symm),
            lookup_dictSet_ne _ _ _ _ hf1, lookup_dictSet_ne _ _ _ _ hf2, he0]
          exact hv0
    · rcases hfa : fieldAction (sliceM5M4 (stripIndexSuffix m.1)) m.2.current.1 m.2.previous.1
          m.2.current.2 m.2.previous.2 with e | a
      · rw [hfa] at hstep
        cases hstep
      · rcases a with _ | v <;> rw [hfa] at hstep <;> cases hstep <;>
          refine ⟨e0, ?_, hv0⟩ <;>
          rw [lookup_dictSet_ne _ _ _ _ (fun hh => hm hh.symm)] <;>
          exact he0

theorem packFold_preserves_field (config : Config) (date : Int)
    (ms : List (String × Sample)) (st st' : PackState) (meas fld : String) (val : PyVal)
    (hfold : packFold config date st ms = .ok st')
    (hf1 : fld ≠ "time") (hf2 : fld ≠ "tags")
    (hnc : ∀ m' ∈ ms, ∀ d' h' f', (config.metrics).lookup (stripIndexSuffix m'.1) =
      some (d', h', meas, f') → f' ≠ fld)
    (hk : ∃ e, (st.data).lookup meas = some e ∧ e.lookup fld = some val) :
    ∃ e, (st'.data).lookup meas = some e ∧ e.lookup fld = some val := by
  induction ms generalizing st with
  | nil =>
    cases hfold
    exact hk
  | cons m ms ih =>
    rcases hs : packStep config date st m with e | st1
    · rw [packFold, hs] at hfold
      cases hfold
    · rw [packFold, hs] at hfold
      refine ih st1 hfold (fun m' hm' => hnc m' (List.mem_cons_of_mem m hm')) ?_
      exact packStep_preserves_field config date st st1 m meas fld val hs hf1 hf2
        (hnc m (List.mem_cons_self m ms)) hk

theorem packValues_ok_elim (config : Config) (values : List (String × Sample) × Int)
    (points : List Point) (warns : List String)
    (hpack : packValues config values = .ok (points, warns)) :
    ∃ st, packFold config values.2 ⟨[], []⟩ values.1 = .ok st ∧
      points = (st.data).map (fun p => mkPoint p.1 p.2) ∧ warns = st.warnings := by
  rcases hfold : packFold config values.2 ⟨[], []⟩ values.1 with e | st
  · rw [packValues, hfold] at hpack
    cases hpack
  · rw [packValues, hfold] at hpack
    cases hpack
    exact ⟨st, rfl, rfl, rfl⟩

theorem processFile_spec (c c' : Config) (f : StateFile) (ev : Event)
    (h : processFile c f = .ok (c', ev)) :
    (c' = c ∧ (ev = .decodeError ∨ ev = .noData ∨ ev = .writeError)) ∨
    (∃ values points warns, f.decode = .ok values ∧
      packValues c values = .ok (points, warns) ∧ points ≠ [] ∧ f.writeOk = true ∧
      c' = ⟨c.metrics, some (max ((c.lastupdate).getD 0) values.2)⟩ ∧
      ev = .written points.length) := by
  obtain ⟨dec, w⟩ := f
  cases dec with
  | failure =>
    cases h
    exact Or.inl ⟨rfl, Or.inl rfl⟩
  | ok values =>
    rw [processFile] at h
    dsimp only at h
    rcases hp : packValues c values with e | pr
    · rw [hp] at h
      cases h
    · obtain ⟨points, warns⟩ := pr
      rw [hp] at h
      dsimp only at h
      by_cases hlen : points.length ≠ 0
      · rw [if_pos hlen] at h
        cases w with
        | true =>
          simp only [if_pos rfl] at h
          cases h
          exact Or.inr ⟨values, points, warns, rfl, hp,
            fun hnil => hlen (by rw [hnil]; rfl), rfl, rfl, rfl⟩
        | false =>
          rw [if_neg Bool.false_ne_true] at h
          cases h
          exact Or.inl ⟨rfl, Or.inr (Or.inr rfl)⟩
      · rw [if_neg hlen] at h
        cases h
        exact Or.inl ⟨rfl, Or.inr (Or.inl rfl)⟩

theorem processFile_lastupdate_mono (c c' : Config) (f : StateFile) (ev : Event)
    (h : processFile c f = .ok (c', ev)) (v : Int) (hv : c.lastupdate = some v) :
    ∃ w, c'.lastupdate = some w ∧ v ≤ w := by
  rcases processFile_spec c c' f ev h with ⟨hc, _⟩ | ⟨values, points, warns, _, _, _, _, hc, _⟩
  · exact ⟨v, by rw [hc, hv], le_refl v⟩
  · refine ⟨max ((c.lastupdate).getD 0) values.2, by rw [hc], ?_⟩
    rw [hv]
    exact le_max_left v values.2

theorem runFiles_lastupdate_mono (files : List StateFile) (c c' : Config) (evs : List Event)
    (h : runFiles c files = .ok (c', evs)) (v : Int) (hv : c.lastupdate = some v) :
    ∃ w, c'.lastupdate = some w ∧ v ≤ w := by
  induction files generalizing c evs v with
  | nil =>
    cases h
    exact ⟨v, hv, le_refl v⟩
  | cons f fs ih =>
    rcases hp : processFile c f with e | pr
    · rw [runFiles, hp] at h
      cases h
    · obtain ⟨c1, ev⟩ := pr
      rw [runFiles, hp] at h
      dsimp only at h
      rcases hr : runFiles c1 fs with e | pr2
      · rw [hr] at h
        cases h
      · obtain ⟨c2, evs2⟩ := pr2
        rw [hr] at h
        cases h
        obtain ⟨w1, hw1, hvw1⟩ := processFile_lastupdate_mono c c1 f ev hp v hv
        obtain ⟨w2, hw2, hw12⟩ := ih c1 evs2 hr w1 hw1
        exact ⟨w2, hw2, le_trans hvw1 hw12⟩

theorem runFiles_length (files : List StateFile) (c c' : Config) (evs : List Event)
    (h : runFiles c files = .ok (c', evs)) : evs.length = files.length := by
  induction files generalizing c evs with
  | nil =>
    cases h
    rfl
  | cons f fs ih =>
    rcases hp : processFile c f with e | pr
    · rw [runFiles, hp] at h
      cases h
    · obtain ⟨c1, ev⟩ := pr
      rw [runFiles, hp] at h
      dsimp only at h
      rcases hr : runFiles c1 fs with e | pr2
      · rw [hr] at h
        cases h
      · obtain ⟨c2, evs2⟩ := pr2
        rw [hr] at h
        cases h
        simp [ih c1 evs2 hr]

/-! Claim theorems. -/

/-- C1: for every counter or derive sample whose current and previous raw
values are both numeric and whose current timestamp is strictly greater than
the previous one, the transformed field value is the per-second rate
(currentValue - previousValue) / (currentTimestamp - previousTimestamp). -/
theorem counter_rate_formula (rrdtype : String) (latest_date previous_date : Int)
    (lv pv : ℚ) (hty : rrdtype = "c" ∨ rrdtype = "d")
    (hlt : previous_date < latest_date) :
    fieldAction rrdtype latest_date previous_date (.num lv) (.num pv) =
      .ok (.assign (some ((lv - pv) / (((latest_date - previous_date : Int)) : ℚ)))) := by
  have hne : ¬(latest_date = previous_date) := by omega
  have hag : ¬(rrdtype = "a" ∨ rrdtype = "g") := by
    rcases hty with h | h <;> subst h <;> decide
  simp only [fieldAction]
  rw [if_neg hag, if_pos hty, if_neg hne]

/-- Witness for counter_rate_formula at the spec's Scenario B numbers:
type code c, current (1700000100, 1000), previous (1700000040, 940), and the
resulting rate evaluates to 1. -/
theorem counter_rate_formula_witness :
    fieldAction "c" 1700000100 1700000040 (.num 1000) (.num 940) =
        .ok (.assign (some ((1000 - 940) / (((1700000100 - 1700000040 : Int)) : ℚ)))) ∧
      ((1000 - 940 : ℚ) / (((1700000100 - 1700000040 : Int)) : ℚ)) = 1 :=
  ⟨counter_rate_formula "c" 1700000100 1700000040 1000 940 (Or.inl rfl) (by norm_num),
   by norm_num⟩

/-- C2 counterexample: for a counter sample the code raises instead of
returning null: with equal timestamps the division raises zeroDivision, and
with an unknown previous value the float conversion raises valueError; in
neither case is the result the null assignment the claim promises. -/
theorem counter_guard_counterexample :
    fieldAction "c" 100 100 (.num 5) (.num 3) = .error .zeroDivision ∧
      fieldAction "c" 200 100 (.num 5) .unknown = .error .valueError ∧
      fieldAction "c" 100 100 (.num 5) (.num 3) ≠ .ok (.assign none) ∧
      fieldAction "c" 200 100 (.num 5) .unknown ≠ .ok (.assign none) :=
  ⟨by decide, by decide, by decide, by decide⟩

/-- C2 amended: for counter and derive samples with a numeric current value,
the transformation raises valueError when the previous raw value is the
unknown sentinel and zeroDivision when the current timestamp equals the
previous one; only when the current raw value itself is the sentinel is the
result null. -/
theorem counter_error_behavior (rrdtype : String) (latest_date previous_date : Int)
    (lv pv : ℚ) (prev : RawValue) (hty : rrdtype = "c" ∨ rrdtype = "d") :
    fieldAction rrdtype latest_date previous_date (.num lv) .unknown =
        .error .valueError ∧
    (latest_date = previous_date →
      fieldAction rrdtype latest_date previous_date (.num lv) (.num pv) =
        .error .zeroDivision) ∧
    fieldAction rrdtype latest_date previous_date .unknown prev = .ok (.assign none) := by
  have hag : ¬(rrdtype = "a" ∨ rrdtype = "g") := by
    rcases hty with h | h <;> subst h <;> decide
  refine ⟨?_, fun heq => ?_, rfl⟩
  · simp only [fieldAction]
    rw [if_neg hag, if_pos hty]
  · simp only [fieldAction]
    rw [if_neg hag, if_pos hty, if_pos heq]

/-- Witness for counter_error_behavior at type code d with equal
timestamps. -/
theorem counter_error_behavior_witness :
    fieldAction "d" 50 50 (.num 1) .unknown = .error .valueError ∧
      fieldAction "d" 50 50 (.num 1) (.num 2) = .error .zeroDivision ∧
      fieldAction "d" 50 50 .unknown .unknown = .ok (.assign none) := by
  obtain ⟨h1, h2, h3⟩ := counter_error_behavior "d" 50 50 1 2 .unknown (Or.inr rfl)
  exact ⟨h1, h2 rfl, h3⟩

/-- C8: for a raw metric key whose stripped form is absent from the metrics
configuration, the loop body leaves the accumulated data untouched (so the
metric contributes no field to any output point) and succeeds (so processing
continues), and it records a warning exactly when the sample's timestamp is
less than seven days before the collection timestamp. -/
theorem not_found_warning (config : Config) (date : Int) (st : PackState)
    (m : String × Sample)
    (hmiss : (config.metrics).lookup (stripIndexSuffix m.1) = none) :
    packStep config date st m =
      .ok ⟨st.data,
        if date - m.2.current.1 < 7 * 86400 then st.warnings ++ [stripIndexSuffix m.1]
        else st.warnings⟩ := by
  rw [packStep_miss config date st m hmiss]
  have hiff : (date - m.2.current.1).fdiv (24 * 3600) < 7 ↔
      date - m.2.current.1 < 7 * 86400 := by
    rw [show ((24 * 3600 : Int)) = 86400 by norm_num,
      Int.fdiv_eq_ediv _ (by norm_num), Int.ediv_lt_iff_lt_mul (by norm_num)]
  by_cases h : date - m.2.current.1 < 7 * 86400
  · rw [if_pos (hiff.mpr h), if_pos h]
  · rw [if_neg (fun hh => h (hiff.mp hh)), if_neg h]

/-- Witness for not_found_warning: a key absent from an empty configuration,
seen 900 seconds before the collection timestamp, is warned about. -/
theorem not_found_warning_witness :
    packStep ⟨[], none⟩ 1000 ⟨[], []⟩ ("abc", ⟨(100, .num 5), (90, .num 3)⟩) =
      .ok ⟨[], if (1000 : Int) - 100 < 7 * 86400 then [] ++ [stripIndexSuffix "abc"]
        else []⟩ :=
  not_found_warning ⟨[], none⟩ 1000 ⟨[], []⟩ ("abc", ⟨(100, .num 5), (90, .num 3)⟩) rfl

/-- C4 counterexample: two gauge metrics of the same measurement but with
different hosts and current timestamps; the emitted point carries the tags
and the time of the second (last) metric, not of the first one as the claim
states. -/
theorem first_writer_counterexample :
    packValues ⟨[("u-g.rrd", ("dom", "h1", "cpu", "user")),
                 ("s-g.rrd", ("dom", "h2", "cpu", "sys"))], none⟩
        ([("u-g.rrd", ⟨(100, .num 1), (50, .num 0)⟩),
          ("s-g.rrd", ⟨(200, .num 2), (50, .num 0)⟩)], 1000) =
      .ok ([⟨"cpu", .vTags "dom" "h2" "cpu", .vInt 200,
            [("user", .vRat 1), ("sys", .vRat 2)]⟩], []) ∧
      (PyVal.vInt 200 ≠ PyVal.vInt 100) ∧
      (PyVal.vTags "dom" "h2" "cpu" ≠ PyVal.vTags "dom" "h1" "cpu") :=
  ⟨by decide, by decide, by decide⟩

/-- C4 amended: last writer wins: every resolvable metric re-sets the tags
and the time of its measurement entry, so after processing a metric (whose
configured field name is not literally time or tags) the entry holds that
metric's current timestamp and tag set, whatever was there before. -/
theorem tags_time_last_writer (config : Config) (date : Int) (st st' : PackState)
    (m : String × Sample) (domain host measurement field : String)
    (hlook : (config.metrics).lookup (stripIndexSuffix m.1) =
      some (domain, host, measurement, field))
    (hf1 : field ≠ "time") (hf2 : field ≠ "tags")
    (hstep : packStep config date st m = .ok st') :
    ∃ entry, (st'.data).lookup measurement = some entry ∧
      entry.lookup "time" = some (.vInt m.2.current.1) ∧
      entry.lookup "tags" = some (.vTags domain host measurement) := by
  rw [packStep_found config date st m domain host measurement field hlook] at hstep
  rcases hfa : fieldAction (sliceM5M4 (stripIndexSuffix m.1)) m.2.current.1 m.2.previous.1
      m.2.current.2 m.2.previous.2 with e | a
  · rw [hfa] at hstep
    cases hstep
  · rcases a with _ | v
    · rw [hfa] at hstep
      cases hstep
      refine ⟨_, lookup_dictSet_self _ _ _, lookup_dictSet_self _ _ _, ?_⟩
      rw [lookup_dictSet_ne _ _ _ _ (by decide)]
      exact lookup_dictSet_self _ _ _
    · rw [hfa] at hstep
      cases hstep
      refine ⟨_, lookup_dictSet_self _ _ _, ?_, ?_⟩
      · rw [lookup_dictSet_ne _ _ _ _ (fun hh => hf1 hh.symm)]
        exact lookup_dictSet_self _ _ _
      · rw [lookup_dictSet_ne _ _ _ _ (fun hh => hf2 hh.symm),
          lookup_dictSet_ne _ _ _ _ (by decide)]
        exact lookup_dictSet_self _ _ _

/-- Witness for tags_time_last_writer: processing a second metric of the
measurement cpu overwrites the previously stored host h1 tags and time 100
with its own host h2 tags and time 200. -/
theorem tags_time_last_writer_witness :
    ∃ entry,
      (((⟨[("cpu", [("tags", PyVal.vTags "dom" "h2" "cpu"), ("time", PyVal.vInt 200),
          ("user", PyVal.vRat 1), ("sys", PyVal.vRat 2)])], []⟩ : PackState)).data).lookup
        "cpu" = some entry ∧
      entry.lookup "time" = some (.vInt 200) ∧
      entry.lookup "tags" = some (.vTags "dom" "h2" "cpu") :=
  tags_time_last_writer ⟨[("s-g.rrd", ("dom", "h2", "cpu", "sys"))], none⟩ 1000
    ⟨[("cpu", [("tags", .vTags "dom" "h1" "cpu"), ("time", .vInt 100),
       ("user", .vRat 1)])], []⟩
    ⟨[("cpu", [("tags", .vTags "dom" "h2" "cpu"), ("time", .vInt 200),
       ("user", .vRat 1), ("sys", .vRat 2)])], []⟩
    ("s-g.rrd", ⟨(200, .num 2), (50, .num 0)⟩) "dom" "h2" "cpu" "sys"
    (by decide) (by decide) (by decide) (by decide)

/-- C5 counterexample: the first metric is a gauge sample with numeric
current value and timestamp 1111, yet the emitted point for its measurement
has time 2222, the timestamp of the later metric of the same measurement. -/
theorem gauge_point_time_counterexample :
    packValues ⟨[("aa-g.rrd", ("dom", "h", "mem", "free")),
                 ("bb-g.rrd", ("dom", "h", "mem", "used"))], none⟩
        ([("aa-g.rrd", ⟨(1111, .num 3), (1000, .num 0)⟩),
          ("bb-g.rrd", ⟨(2222, .num 4), (1000, .num 0)⟩)], 5000) =
      .ok ([⟨"mem", .vTags "dom" "h" "mem", .vInt 2222,
            [("free", .vRat 3), ("used", .vRat 4)]⟩], []) ∧
      (PyVal.vInt 2222 ≠ PyVal.vInt 1111) :=
  ⟨by decide, by decide⟩

/-- C5 amended: for every gauge or absolute sample with a numeric current
value the transformed field value is exactly that value, independent of the
previous sample; processing such a metric stores the value and sets the
measurement's time to the metric's current timestamp, so the emitted point's
time is the current timestamp of the last metric of its measurement. -/
theorem gauge_passthrough :
    (∀ (rrdtype : String) (latest_date previous_date : Int) (q : ℚ) (prev : RawValue),
      (rrdtype = "a" ∨ rrdtype = "g") →
      fieldAction rrdtype latest_date previous_date (.num q) prev =
        .ok (.assign (some q))) ∧
    (∀ (config : Config) (date : Int) (st st' : PackState) (m : String × Sample)
      (domain host measurement field : String) (q : ℚ),
      (config.metrics).lookup (stripIndexSuffix m.1) =
        some (domain, host, measurement, field) →
      (sliceM5M4 (stripIndexSuffix m.1) = "a" ∨ sliceM5M4 (stripIndexSuffix m.1) = "g") →
      m.2.current.2 = .num q → field ≠ "time" → field ≠ "tags" →
      packStep config date st m = .ok st' →
      ∃ entry, (st'.data).lookup measurement = some entry ∧
        entry.lookup field = some (.vRat q) ∧
        entry.lookup "time" = some (.vInt m.2.current.1)) := by
  have hpass : ∀ (rrdtype : String) (latest_date previous_date : Int) (q : ℚ)
      (prev : RawValue), (rrdtype = "a" ∨ rrdtype = "g") →
      fieldAction rrdtype latest_date previous_date (.num q) prev =
        .ok (.assign (some q)) := by
    intro rrdtype latest_date previous_date q prev hag
    simp only [fieldAction]
    rw [if_pos hag]
  refine ⟨hpass, ?_⟩
  intro config date st st' m domain host measurement field q hlook hty hcur hf1 hf2 hstep
  have hfa : fieldAction (sliceM5M4 (stripIndexSuffix m.1)) m.2.current.1 m.2.previous.1
      m.2.current.2 m.2.previous.2 = .ok (.assign (some q)) := by
    rw [hcur]
    exact hpass _ _ _ _ _ hty
  obtain ⟨entry, he, hv, ht, _⟩ := packStep_assign_lookups config date st st' m
    domain host measurement field (some q) hlook hfa hf1 hf2 hstep
  exact ⟨entry, he, hv, ht⟩

/-- Witness for gauge_passthrough at the spec's Scenario A value 55. -/
theorem gauge_passthrough_witness :
    fieldAction "g" 1700000100 1700000040 (.num 55) (.num 10) =
      .ok (.assign (some 55)) :=
  gauge_passthrough.1 "g" 1700000100 1700000040 55 (.num 10) (Or.inr rfl)

/-- C10: when a resolvable metric's configured field name is literally time
or tags, the assigned value overwrites the accumulator's time or tags entry
and the emitted point's fields map never contains that key; for any other
field name the value lands in the fields map and the time and tags entries
are exactly the ones the metric itself just set. -/
theorem field_name_collision (config : Config) (date : Int) (st st' : PackState)
    (m : String × Sample) (domain host measurement field : String) (v : Option ℚ)
    (hlook : (config.metrics).lookup (stripIndexSuffix m.1) =
      some (domain, host, measurement, field))
    (hfa : fieldAction (sliceM5M4 (stripIndexSuffix m.1)) m.2.current.1 m.2.previous.1
      m.2.current.2 m.2.previous.2 = .ok (.assign v))
    (hstep : packStep config date st m = .ok st') :
    ∃ entry, (st'.data).lookup measurement = some entry ∧
      (field = "time" →
        entry.lookup "time" = some (pyValOf v) ∧
        (mkPoint measurement entry).time = pyValOf v ∧
        (mkPoint measurement entry).fields.lookup "time" = none) ∧
      (field = "tags" →
        entry.lookup "tags" = some (pyValOf v) ∧
        (mkPoint measurement entry).tags = pyValOf v ∧
        (mkPoint measurement entry).fields.lookup "tags" = none) ∧
      (field ≠ "time" → field ≠ "tags" →
        (mkPoint measurement entry).fields.lookup field = some (pyValOf v) ∧
        entry.lookup "time" = some (.vInt m.2.current.1) ∧
        entry.lookup "tags" = some (.vTags domain host measurement)) := by
  rw [packStep_found config date st m domain host measurement field hlook, hfa] at hstep
  cases hstep
  refine ⟨_, lookup_dictSet_self _ _ _, ?_, ?_, ?_⟩
  · intro hft
    subst hft
    refine ⟨lookup_dictSet_self _ _ _, ?_, lookup_filter_drop _ _ (Or.inl rfl)⟩
    simp only [mkPoint]
    rw [lookup_dictSet_self]
    rfl
  · intro hft
    subst hft
    refine ⟨lookup_dictSet_self _ _ _, ?_, lookup_filter_drop _ _ (Or.inr rfl)⟩
    simp only [mkPoint]
    rw [lookup_dictSet_self]
    rfl
  · intro hf1 hf2
    refine ⟨?_, ?_, ?_⟩
    · simp only [mkPoint]
      rw [lookup_filter_keep _ _ hf1 hf2]
      exact lookup_dictSet_self _ _ _
    · rw [lookup_dictSet_ne _ _ _ _ (fun hh => hf1 hh.symm)]
      exact lookup_dictSet_self _ _ _
    · rw [lookup_dictSet_ne _ _ _ _ (fun hh => hf2 hh.symm),
        lookup_dictSet_ne _ _ _ _ (by decide)]
      exact lookup_dictSet_self _ _ _

/-- Witness for field_name_collision: a gauge metric whose configured field
name is time; its value 7 overwrites the stored timestamp and the point's
fields map has no time key. -/
theorem field_name_collision_witness :
    ∃ entry, (([("mm", [("tags", PyVal.vTags "d" "h" "mm"), ("time", PyVal.vRat 7)])] :
        Dict String (Dict String PyVal))).lookup "mm" = some entry ∧
      entry.lookup "time" = some (PyVal.vRat 7) ∧
      (mkPoint "mm" entry).time = PyVal.vRat 7 ∧
      (mkPoint "mm" entry).fields.lookup "time" = none := by
  obtain ⟨entry, he, ht, _, _⟩ := field_name_collision
    ⟨[("tt-g.rrd", ("d", "h", "mm", "time"))], none⟩ 1000 ⟨[], []⟩
    ⟨[("mm", [("tags", PyVal.vTags "d" "h" "mm"), ("time", PyVal.vRat 7)])], []⟩
    ("tt-g.rrd", ⟨(100, .num 7), (90, .num 0)⟩) "d" "h" "mm" "time" (some 7)
    (by decide) (by decide) (by decide)
  obtain ⟨h1, h2, h3⟩ := ht rfl
  exact ⟨entry, he, h1, h2, h3⟩

/-- C9 counterexample: for the key xy-c.rrd:42 the code reads the type code
from the stripped name, where the character five places from the end is c,
while the same fixed position of the unstripped raw key holds r; the run on
this key applies counter (rate) semantics, so the type code cannot come from
the unstripped key's fixed position. -/
theorem typecode_position_counterexample :
    sliceM5M4 (stripIndexSuffix "xy-c.rrd:42") = "c" ∧
      rrdtypeOfUnstripped "xy-c.rrd:42" = "r" ∧
      ("c" : String) ≠ "r" ∧
      packValues ⟨[("xy-c.rrd", ("d", "h", "meas", "f1"))], none⟩
          ([("xy-c.rrd:42", ⟨(100, .num 10), (90, .num 0)⟩)], 1000) =
        .ok ([⟨"meas", .vTags "d" "h" "meas", .vInt 100,
              [("f1", .vRat ((10 - 0) / (((100 - 90 : Int)) : ℚ)))]⟩], []) :=
  ⟨by decide, by decide, by decide, by rfl⟩

/-- C9 amended: the type code is the character five places from the end of
the stripped key; only for keys that do not carry the index suffix does this
agree with the same fixed position of the unstripped raw key, while for keys
ending in the suffix it is the character eight places from the end of the
unstripped key. -/
theorem typecode_position (metric : String) :
    ((rrdIndexSuffix.data.isSuffixOf metric.data) = false →
      sliceM5M4 (stripIndexSuffix metric) = sliceM5M4 metric) ∧
    ((rrdIndexSuffix.data.isSuffixOf metric.data) = true →
      sliceM5M4 (stripIndexSuffix metric) =
        if 8 ≤ metric.data.length then
          String.mk ((metric.data.drop (metric.data.length - 8)).take 1)
        else "") := by
  constructor
  · intro h
    rw [stripIndexSuffix, if_neg (by simp [h])]
  · intro h
    obtain ⟨t, ht⟩ := List.isSuffixOf_iff_suffix.mp h
    rw [stripIndexSuffix, if_pos h]
    have h3 : rrdIndexSuffix.data.length = 3 := rfl
    rw [← ht, List.length_append, h3, Nat.add_sub_cancel,
      List.take_append_of_le_length (le_refl t.length), List.take_length]
    have hdata : (String.mk t).data = t := rfl
    by_cases h5 : 5 ≤ t.length
    · rw [sliceM5M4, hdata, if_pos h5, if_pos (by omega)]
      have hdrop : t.length + 3 - 8 = t.length - 5 := by omega
      rw [hdrop, List.drop_append_of_le_length (by omega),
        List.take_append_of_le_length (by rw [List.length_drop]; omega)]
    · rw [sliceM5M4, hdata, if_neg h5, if_neg (by omega)]

/-- Witness for typecode_position on a key without the index suffix, where
the stripped and unstripped positions agree. -/
theorem typecode_position_witness :
    sliceM5M4 (stripIndexSuffix "ab-g.rrd") = sliceM5M4 "ab-g.rrd" :=
  (typecode_position "ab-g.rrd").1 (by decide)

/-- C3: across one run the watermark never decreases; a processed state file
changes the configuration only when decoding succeeded, the packed batch was
non-empty and the write succeeded, in which case lastupdate becomes
max(lastupdate or 0, collection timestamp); and a successful non-empty write
does produce exactly that update. -/
theorem lastupdate_watermark (config config' : Config) (files : List StateFile)
    (evs : List Event) (hrun : runFiles config files = .ok (config', evs)) :
    (∀ v, config.lastupdate = some v → ∃ w, config'.lastupdate = some w ∧ v ≤ w) ∧
    (∀ f c c' ev, processFile c f = .ok (c', ev) → c' ≠ c →
      ∃ values points warns, f.decode = .ok values ∧
        packValues c values = .ok (points, warns) ∧ points ≠ [] ∧ f.writeOk = true ∧
        c'.lastupdate = some (max ((c.lastupdate).getD 0) values.2)) ∧
    (∀ f c values points warns, f.decode = .ok values →
      packValues c values = .ok (points, warns) → points ≠ [] → f.writeOk = true →
      processFile c f =
        .ok (⟨c.metrics, some (max ((c.lastupdate).getD 0) values.2)⟩,
          .written points.length)) := by
  refine ⟨fun v hv => runFiles_lastupdate_mono files config config' evs hrun v hv, ?_, ?_⟩
  · intro f c c' ev h hne
    rcases processFile_spec c c' f ev h with ⟨hc, _⟩ |
        ⟨values, points, warns, hd, hp, hn, hw, hc, _⟩
    · exact absurd hc hne
    · exact ⟨values, points, warns, hd, hp, hn, hw, by rw [hc]⟩
  · intro f c values points warns hd hp hn hw
    obtain ⟨dec, w⟩ := f
    subst hd
    subst hw
    simp only [processFile]
    try dsimp only
    rw [hp]
    try dsimp only
    rw [if_pos (fun h0 => hn (List.length_eq_zero.mp h0)), if_pos trivial]

/-- Witness for lastupdate_watermark: a run over one undecodable state file
leaves the watermark 5 in place, so the monotonicity conclusion holds. -/
theorem lastupdate_watermark_witness :
    ∃ w, (Config.mk [] (some 5)).lastupdate = some w ∧ 5 ≤ w :=
  (lastupdate_watermark ⟨[], some 5⟩ ⟨[], some 5⟩ [⟨.failure, true⟩] [.decodeError]
    (by decide)).1 5 rfl

/-- C7: a startup connection failure is fatal before any state file is
processed; a decode failure is absorbed with the configuration unchanged; a
write failure on a non-empty batch is absorbed with the configuration
unchanged; and when the run completes, every configured state file produced
its own event. -/
theorem failure_isolation (config : Config) (files : List StateFile) :
    fetchMain false config files = .error .connection ∧
    (∀ w : Bool, processFile config ⟨.failure, w⟩ = .ok (config, .decodeError)) ∧
    (∀ f values points warns, f.decode = .ok values →
      packValues config values = .ok (points, warns) → points ≠ [] → f.writeOk = false →
      processFile config f = .ok (config, .writeError)) ∧
    (∀ config' evs, fetchMain true config files = .ok (config', evs) →
      evs.length = files.length) := by
  refine ⟨rfl, fun w => rfl, ?_, ?_⟩
  · intro f values points warns hd hp hn hw
    obtain ⟨dec, w⟩ := f
    subst hd
    subst hw
    simp only [processFile]
    try dsimp only
    rw [hp]
    try dsimp only
    rw [if_pos (fun h0 => hn (List.length_eq_zero.mp h0)), if_neg Bool.false_ne_true]
  · intro config' evs h
    rw [fetchMain, if_pos rfl] at h
    rcases hr : runFiles config files with e | pr
    · rw [hr] at h
      cases h
    · obtain ⟨c2, evs2⟩ := pr
      rw [hr] at h
      cases h
      exact runFiles_length files config _ _ hr

/-- Witness for failure_isolation at a concrete configuration. -/
theorem failure_isolation_witness :
    fetchMain false ⟨[], none⟩ [] = .error .connection ∧
      processFile ⟨[], none⟩ ⟨.failure, true⟩ = .ok (⟨[], none⟩, .decodeError) :=
  ⟨(failure_isolation ⟨[], none⟩ []).1, (failure_isolation ⟨[], none⟩ []).2.1 true⟩

/-- C7 counterexample: with the connection fine, a counter sample with equal
current and previous timestamps makes pack_values raise; the exception
escapes the per-file handler and terminates the whole run, so a connection
failure is not the only way the run ends with a non-zero exit. -/
theorem failure_isolation_counterexample :
    fetchMain true ⟨[("xy-c.rrd", ("d", "h", "meas", "f1"))], none⟩
        [⟨.failure, true⟩,
         ⟨.ok ([("xy-c.rrd", ⟨(100, .num 5), (100, .num 3)⟩)], 500), true⟩] =
      .error (.pack .zeroDivision) ∧
      (RunError.pack .zeroDivision ≠ RunError.connection) :=
  ⟨by decide, by decide⟩

/-- C6: a resolvable sample whose current raw value is the unknown sentinel
transforms to null regardless of the type code, and (when no later metric of
the sample set writes the same measurement field) the emitted point for its
measurement is still there and carries that null field. -/
theorem unknown_sentinel_null (config : Config) (date : Int)
    (ms1 ms2 : List (String × Sample)) (m : String × Sample)
    (domain host measurement field : String) (points : List Point) (warns : List String)
    (hU : m.2.current.2 = .unknown)
    (hlook : (config.metrics).lookup (stripIndexSuffix m.1) =
      some (domain, host, measurement, field))
    (hf1 : field ≠ "time") (hf2 : field ≠ "tags")
    (hnc : ∀ m' ∈ ms2, ∀ d' h' f', (config.metrics).lookup (stripIndexSuffix m'.1) =
      some (d', h', measurement, f') → f' ≠ field)
    (hpack : packValues config (ms1 ++ m :: ms2, date) = .ok (points, warns)) :
    (∀ (rrdtype : String) (ld pd : Int) (prev : RawValue),
      fieldAction rrdtype ld pd .unknown prev = .ok (.assign none)) ∧
    ∃ pt, pt ∈ points ∧ pt.measurement = measurement ∧
      pt.fields.lookup field = some PyVal.vNone := by
  obtain ⟨stF, hfold, hpts, hwarns⟩ := packValues_ok_elim config (ms1 ++ m :: ms2, date)
    points warns hpack
  obtain ⟨st1, hfold1, hfold2⟩ := packFold_append_ok config date ms1 (m :: ms2) ⟨[], []⟩
    stF hfold
  rcases hs : packStep config date st1 m with e | st2
  · rw [packFold, hs] at hfold2
    cases hfold2
  · rw [packFold, hs] at hfold2
    have hfa : fieldAction (sliceM5M4 (stripIndexSuffix m.1)) m.2.current.1 m.2.previous.1
        m.2.current.2 m.2.previous.2 = .ok (.assign none) := by
      rw [hU]
      rfl
    obtain ⟨entry, he, hv, _, _⟩ := packStep_assign_lookups config date st1 st2 m
      domain host measurement field none hlook hfa hf1 hf2 hs
    obtain ⟨e, heF, hvF⟩ :=
      packFold_preserves_field config date ms2 st2 stF measurement field PyVal.vNone
        hfold2 hf1 hf2 hnc ⟨entry, he, hv⟩
    refine ⟨fun rrdtype ld pd prev => rfl, mkPoint measurement e, ?_, rfl, ?_⟩
    · rw [hpts]
      exact List.mem_map_of_mem (fun p => mkPoint p.1 p.2) (mem_of_lookup_eq_some _ _ _ heF)
    · simp only [mkPoint]
      rw [lookup_filter_keep _ _ hf1 hf2]
      exact hvF

/-- Witness for unknown_sentinel_null: an unknown gauge sample next to a
numeric sibling of the same measurement; the point is emitted with the null
field alongside the sibling's value. -/
theorem unknown_sentinel_null_witness :
    fieldAction "c" 9 5 .unknown (.num 3) = .ok (.assign none) ∧
    ∃ pt, pt ∈ [(⟨"mm", PyVal.vTags "d" "h" "mm", PyVal.vInt 150,
        [("a1", PyVal.vNone), ("b1", PyVal.vRat 2)]⟩ : Point)] ∧
      pt.measurement = "mm" ∧ pt.fields.lookup "a1" = some PyVal.vNone := by
  have h := unknown_sentinel_null
    ⟨[("uu-g.rrd", ("d", "h", "mm", "a1")), ("vv-g.rrd", ("d", "h", "mm", "b1"))], none⟩
    5000 [] [("vv-g.rrd", ⟨(150, .num 2), (90, .num 0)⟩)]
    ("uu-g.rrd", ⟨(100, .unknown), (90, .num 1)⟩)
    "d" "h" "mm" "a1"
    [⟨"mm", PyVal.vTags "d" "h" "mm", PyVal.vInt 150,
      [("a1", PyVal.vNone), ("b1", PyVal.vRat 2)]⟩] []
    rfl (by decide) (by decide) (by decide)
    (by
      intro m' hm' d' h' f' hl
      simp only [List.mem_singleton] at hm'
      subst hm'
      rw [(by decide : (List.lookup (stripIndexSuffix "vv-g.rrd")
        ([("uu-g.rrd", ("d", "h", "mm", "a1")),
          ("vv-g.rrd", ("d", "h", "mm", "b1"))] :
          Dict String (String × String × String × String))) =
        some ("d", "h", "mm", "b1"))] at hl
      simp only [Option.some.injEq, Prod.mk.injEq] at hl
      obtain ⟨_, _, _, hf⟩ := hl
      subst hf
      decide)
    (by decide)
  exact ⟨h.1 "c" 9 5 (.num 3), h.2⟩

end MuninFetch
